import Mathlib

/-!
# Verification of the SQLite mapping store (`database.py`)

Shallow embedding of the module `database.py`, which persists identity
mappings between Telegram user identifiers and Bitrix24 CRM user
identifiers in two SQLite tables:

* `telegram_bitrix_mapping (telegram_id INTEGER PRIMARY KEY, bitrix_user_id
  INTEGER NOT NULL, created_at TIMESTAMP DEFAULT CURRENT_TIMESTAMP,
  updated_at TIMESTAMP DEFAULT CURRENT_TIMESTAMP, UNIQUE(telegram_id,
  bitrix_user_id))`
* `username_bitrix_mapping (telegram_username TEXT PRIMARY KEY,
  bitrix_user_id INTEGER NOT NULL, created_at ..., updated_at ...)`

Modelling choices, all taken from the source and SQLite semantics:

* A table is a list of rows held in rowid order.  In the telegram table the
  column `telegram_id` is declared `INTEGER PRIMARY KEY`, so it *is* the
  rowid and the table is kept sorted by `telegram_id`; `INSERT OR REPLACE`
  deletes any row with the same primary key and inserts a fresh row (column
  defaults apply to columns absent from the insert list, so `created_at`
  is set to `CURRENT_TIMESTAMP` again).  In the username table the primary
  key is `TEXT`, so rows live at fresh rowids: a replaced row is deleted
  and the new row appended at the end.
* `CURRENT_TIMESTAMP` is passed in as an explicit `now : Nat` parameter.
* Every public function wraps its body in `try/except`; an underlying
  SQLite exception is injected through a `fault : Bool` parameter.  When a
  fault fires, the context manager `get_db_connection` rolls the
  transaction back (state unchanged) and the `except` clause converts the
  exception into the function's failure value (`False`, `None` or the
  partially built empty dict).
* Python `dict` is modelled as a `List (Int × Int)` with insertion-order
  semantics: writing to an existing key updates the value in place,
  writing a fresh key appends.
* Python integers are unbounded, hence `Int`.
-/

/-- A row of the table `telegram_bitrix_mapping`. -/
structure TgRow where
  telegram_id : Int
  bitrix_user_id : Int
  created_at : Nat
  updated_at : Nat
deriving Repr, DecidableEq

/-- A row of the table `username_bitrix_mapping`. -/
structure UnRow where
  telegram_username : String
  bitrix_user_id : Int
  created_at : Nat
  updated_at : Nat
deriving Repr, DecidableEq

/-- The SQLite database file: both tables, each in rowid order. -/
structure DBState where
  tg : List TgRow
  un : List UnRow
deriving Repr, DecidableEq

/-- The freshly initialised database: `init_database` has created both
(empty) tables. -/
def emptyDB : DBState := ⟨[], []⟩

/-- Insert a row of `telegram_bitrix_mapping` at its rowid position: since
`telegram_id` is the `INTEGER PRIMARY KEY`, it is the rowid and the B-tree
keeps rows sorted by it. -/
def insertByRowid (r : TgRow) : List TgRow → List TgRow
  | [] => [r]
  | x :: xs =>
    if r.telegram_id ≤ x.telegram_id then r :: x :: xs
    else x :: insertByRowid r xs

/-- `save_telegram_mapping(telegram_id, bitrix_user_id)`: runs
`INSERT OR REPLACE INTO telegram_bitrix_mapping (telegram_id,
bitrix_user_id, updated_at) VALUES (?, ?, CURRENT_TIMESTAMP)` and returns
`True`; on any exception the transaction is rolled back and `False` is
returned.  `INSERT OR REPLACE` first deletes every row conflicting on the
primary key, then inserts a fresh row whose `created_at` takes the column
default `CURRENT_TIMESTAMP`. -/
def save_telegram_mapping (fault : Bool) (now : Nat) (s : DBState)
    (telegram_id bitrix_user_id : Int) : DBState × Bool :=
  if fault then (s, false)
  else
    ({ s with
        tg := insertByRowid ⟨telegram_id, bitrix_user_id, now, now⟩
          (s.tg.filter (fun r => r.telegram_id ≠ telegram_id)) },
      true)

/-- `get_bitrix_user_id(telegram_id)`: `SELECT bitrix_user_id FROM
telegram_bitrix_mapping WHERE telegram_id = ?`, `fetchone`; `None` when no
row matches or on any exception. -/
def get_bitrix_user_id (fault : Bool) (s : DBState)
    (telegram_id : Int) : Option Int :=
  if fault then none
  else
    match s.tg.find? (fun r => r.telegram_id = telegram_id) with
    | some row => some row.bitrix_user_id
    | none => none

/-- `get_telegram_id(bitrix_user_id)`: `SELECT telegram_id FROM
telegram_bitrix_mapping WHERE bitrix_user_id = ?`, `fetchone`.  The query
scans the index `idx_bitrix_user_id`, whose entries are ordered by
`(bitrix_user_id, rowid)`, so `fetchone` yields the matching row with the
smallest rowid — the first match in table (storage) order. -/
def get_telegram_id (fault : Bool) (s : DBState)
    (bitrix_user_id : Int) : Option Int :=
  if fault then none
  else
    match s.tg.find? (fun r => r.bitrix_user_id = bitrix_user_id) with
    | some row => some row.telegram_id
    | none => none

/-- One iteration of the Python loop body
`mappings[int(row['telegram_id'])] = int(row['bitrix_user_id'])`:
a Python dict write updates an existing key in place (keeping its
insertion position) and appends a fresh key. -/
def dictInsert (k v : Int) (m : List (Int × Int)) : List (Int × Int) :=
  if m.any (fun p => p.1 = k) then
    m.map (fun p => if p.1 = k then (k, v) else p)
  else m ++ [(k, v)]

/-- `load_all_telegram_mappings()`: `SELECT telegram_id, bitrix_user_id
FROM telegram_bitrix_mapping`, then builds the dict row by row.  On an
exception the dict built so far (empty, since the fault fires in the
storage layer before any row is delivered) is returned — never an
error. -/
def load_all_telegram_mappings (fault : Bool) (s : DBState) :
    List (Int × Int) :=
  if fault then []
  else s.tg.foldl (fun m r => dictInsert r.telegram_id r.bitrix_user_id m) []

/-- `telegram_username.lstrip('@')`: removes the maximal leading run of
`'@'` characters.  A Python `str` is a sequence of characters, modelled
through the character list underlying `String`. -/
def lstripAt (s : String) : String := ⟨s.data.dropWhile (fun c => c = '@')⟩

/-- `save_username_mapping(telegram_username, bitrix_user_id)`: strips the
leading `@`, then `INSERT OR REPLACE INTO username_bitrix_mapping
(telegram_username, bitrix_user_id, updated_at) VALUES (?, ?,
CURRENT_TIMESTAMP)`.  The primary key is `TEXT`, so the fresh row gets a
new maximal rowid: the conflicting row is deleted and the new one appended
at the end of the table. -/
def save_username_mapping (fault : Bool) (now : Nat) (s : DBState)
    (telegram_username : String) (bitrix_user_id : Int) : DBState × Bool :=
  if fault then (s, false)
  else
    let username := lstripAt telegram_username
    ({ s with
        un := s.un.filter (fun r => r.telegram_username ≠ username)
          ++ [⟨username, bitrix_user_id, now, now⟩] },
      true)

/-- `get_bitrix_user_id_by_username(telegram_username)`: strips the
leading `@`, then `SELECT bitrix_user_id FROM username_bitrix_mapping
WHERE telegram_username = ?`, `fetchone`. -/
def get_bitrix_user_id_by_username (fault : Bool) (s : DBState)
    (telegram_username : String) : Option Int :=
  if fault then none
  else
    let username := lstripAt telegram_username
    match s.un.find? (fun r => r.telegram_username = username) with
    | some row => some row.bitrix_user_id
    | none => none

/-- `delete_telegram_mapping(telegram_id)`: `DELETE FROM
telegram_bitrix_mapping WHERE telegram_id = ?`; returns `True` exactly
when `cursor.rowcount > 0`, i.e. when at least one row was deleted, and
`False` (after logging a warning) when nothing matched; `False` with a
rollback on an exception. -/
def delete_telegram_mapping (fault : Bool) (s : DBState)
    (telegram_id : Int) : DBState × Bool :=
  if fault then (s, false)
  else
    let remaining := s.tg.filter (fun r => r.telegram_id ≠ telegram_id)
    if 0 < s.tg.countP (fun r => r.telegram_id = telegram_id) then
      ({ s with tg := remaining }, true)
    else (s, false)

/-- `get_all_mappings()`: alias for `load_all_telegram_mappings`. -/
def get_all_mappings (fault : Bool) (s : DBState) : List (Int × Int) :=
  load_all_telegram_mappings fault s

/-- The states reachable from a freshly initialised database through the
module's public operations (reads do not change state). -/
inductive Reachable : DBState → Prop
  | init : Reachable emptyDB
  | save (f : Bool) (now : Nat) (tid bid : Int) {s : DBState} :
      Reachable s → Reachable (save_telegram_mapping f now s tid bid).1
  | saveUser (f : Bool) (now : Nat) (u : String) (bid : Int) {s : DBState} :
      Reachable s → Reachable (save_username_mapping f now s u bid).1
  | del (f : Bool) (tid : Int) {s : DBState} :
      Reachable s → Reachable (delete_telegram_mapping f s tid).1

/-- Rowid order of the telegram table: strictly increasing `telegram_id`
(which in particular means the primary key is unique). -/
def TgSorted (s : DBState) : Prop :=
  s.tg.Pairwise (fun a b => a.telegram_id < b.telegram_id)

/-! ## Helper lemmas about the table primitives -/

theorem mem_insertByRowid (r a : TgRow) (l : List TgRow) :
    a ∈ insertByRowid r l ↔ a = r ∨ a ∈ l := by
  induction l with
  | nil => simp [insertByRowid]
  | cons x xs ih =>
    by_cases h : r.telegram_id ≤ x.telegram_id
    · simp [insertByRowid, h]
    · simp only [insertByRowid, if_neg h, List.mem_cons, ih]
      tauto

theorem length_insertByRowid (r : TgRow) (l : List TgRow) :
    (insertByRowid r l).length = l.length + 1 := by
  induction l with
  | nil => rfl
  | cons x xs ih =>
    by_cases h : r.telegram_id ≤ x.telegram_id
    · simp [insertByRowid, h]
    · simp only [insertByRowid, if_neg h, List.length_cons, ih]

theorem find?_insertByRowid {p : TgRow → Bool} {r : TgRow} {l : List TgRow}
    (hl : ∀ x ∈ l, p x = false) (hr : p r = true) :
    (insertByRowid r l).find? p = some r := by
  induction l with
  | nil => simp [insertByRowid, hr]
  | cons x xs ih =>
    have hx : p x = false := hl x (by simp)
    by_cases h : r.telegram_id ≤ x.telegram_id
    · simp [insertByRowid, h, hr]
    · rw [insertByRowid, if_neg h,
        List.find?_cons_of_neg _ (by simp [hx])]
      exact ih fun y hy => hl y (by simp [hy])

theorem pairwise_insertByRowid {r : TgRow} {l : List TgRow}
    (hl : l.Pairwise (fun a b => a.telegram_id < b.telegram_id))
    (hne : ∀ x ∈ l, x.telegram_id ≠ r.telegram_id) :
    (insertByRowid r l).Pairwise (fun a b => a.telegram_id < b.telegram_id) := by
  induction l with
  | nil => simp [insertByRowid]
  | cons x xs ih =>
    rw [List.pairwise_cons] at hl
    obtain ⟨hx, hxs⟩ := hl
    by_cases h : r.telegram_id ≤ x.telegram_id
    · have hrx : r.telegram_id < x.telegram_id :=
        lt_of_le_of_ne h fun e => hne x (by simp) e.symm
      rw [insertByRowid, if_pos h]
      refine List.pairwise_cons.2 ⟨?_, List.pairwise_cons.2 ⟨hx, hxs⟩⟩
      intro b hb
      rcases List.mem_cons.1 hb with hb | hb
      · exact hb ▸ hrx
      · exact lt_trans hrx (hx b hb)
    · have hxr : x.telegram_id < r.telegram_id := lt_of_not_le h
      rw [insertByRowid, if_neg h]
      refine List.pairwise_cons.2 ⟨?_, ih hxs fun y hy => hne y (by simp [hy])⟩
      intro b hb
      rcases (mem_insertByRowid r b xs).1 hb with hb | hb
      · exact hb ▸ hxr
      · exact hx b hb

theorem find?_append_of_forall {α : Type} {p : α → Bool} {l : List α} {r : α}
    (hl : ∀ x ∈ l, p x = false) (hr : p r = true) :
    (l ++ [r]).find? p = some r := by
  induction l with
  | nil => simp [hr]
  | cons x xs ih =>
    rw [List.cons_append,
      List.find?_cons_of_neg _ (by simp [hl x (by simp)])]
    exact ih fun y hy => hl y (by simp [hy])

theorem countP_key_le_one {l : List TgRow}
    (hl : l.Pairwise (fun a b => a.telegram_id < b.telegram_id)) (tid : Int) :
    l.countP (fun r => r.telegram_id = tid) ≤ 1 := by
  induction l with
  | nil => simp
  | cons x xs ih =>
    rw [List.pairwise_cons] at hl
    obtain ⟨hx, hxs⟩ := hl
    rw [List.countP_cons]
    by_cases h : x.telegram_id = tid
    · have hz : xs.countP (fun r => r.telegram_id = tid) = 0 := by
        rw [List.countP_eq_zero]
        intro a ha
        simp only [decide_eq_true_eq]
        intro e
        have hlt := hx a ha
        rw [h, e] at hlt
        exact lt_irrefl tid hlt
      simp [hz, h]
    · simp only [decide_eq_true_eq, h, if_false]
      simpa using ih hxs

/-! ## Invariants of the store's state -/

theorem tgSorted_save (f : Bool) (now : Nat) (s : DBState) (tid bid : Int)
    (hs : TgSorted s) : TgSorted (save_telegram_mapping f now s tid bid).1 := by
  cases f with
  | true => exact hs
  | false =>
    refine pairwise_insertByRowid
      (List.Pairwise.sublist (List.filter_sublist _) hs) ?_
    intro x hx
    have := (List.mem_filter.1 hx).2
    simpa using this

theorem tgSorted_saveUser (f : Bool) (now : Nat) (s : DBState) (u : String)
    (bid : Int) (hs : TgSorted s) :
    TgSorted (save_username_mapping f now s u bid).1 := by
  cases f with
  | true => exact hs
  | false => exact hs

theorem tgSorted_delete (f : Bool) (s : DBState) (tid : Int)
    (hs : TgSorted s) : TgSorted (delete_telegram_mapping f s tid).1 := by
  cases f with
  | true => exact hs
  | false =>
    unfold delete_telegram_mapping
    simp only [Bool.false_eq_true, if_false]
    by_cases h : 0 < s.tg.countP (fun r => r.telegram_id = tid)
    · simpa [h] using List.Pairwise.sublist (List.filter_sublist _) hs
    · simpa [h] using hs

theorem reachable_sorted {s : DBState} (h : Reachable s) : TgSorted s := by
  induction h with
  | init => exact List.Pairwise.nil
  | save f now tid bid _ ih => exact tgSorted_save f now _ tid bid ih
  | saveUser f now u bid _ ih => exact tgSorted_saveUser f now _ u bid ih
  | del f tid _ ih => exact tgSorted_delete f _ tid ih

/-- After a successful save, the row stored under `telegram_id` is exactly
the freshly inserted one: both timestamp columns carry the save's
`CURRENT_TIMESTAMP`. -/
theorem find?_tg_after_save (now : Nat) (s : DBState) (tid bid : Int) :
    (save_telegram_mapping false now s tid bid).1.tg.find?
      (fun r => r.telegram_id = tid) = some ⟨tid, bid, now, now⟩ := by
  unfold save_telegram_mapping
  simp only [Bool.false_eq_true, if_false]
  refine find?_insertByRowid ?_ (by simp)
  intro x hx
  have := (List.mem_filter.1 hx).2
  simp only [decide_eq_true_eq] at this ⊢
  simpa using this

/-! ## The dict built by `load_all_telegram_mappings` -/

theorem foldl_dictInsert (rows : List TgRow) :
    ∀ acc : List (Int × Int),
      rows.Pairwise (fun a b => a.telegram_id ≠ b.telegram_id) →
      (∀ r ∈ rows, ∀ q ∈ acc, q.1 ≠ r.telegram_id) →
      rows.foldl (fun m r => dictInsert r.telegram_id r.bitrix_user_id m) acc
        = acc ++ rows.map (fun r => (r.telegram_id, r.bitrix_user_id)) := by
  induction rows with
  | nil => intro acc _ _; simp
  | cons r rows ih =>
    intro acc hnd hacc
    rw [List.pairwise_cons] at hnd
    obtain ⟨hr, hnd⟩ := hnd
    have hstep : dictInsert r.telegram_id r.bitrix_user_id acc
        = acc ++ [(r.telegram_id, r.bitrix_user_id)] := by
      unfold dictInsert
      rw [if_neg]
      simp only [List.any_eq_true, decide_eq_true_eq, not_exists]
      intro q hq
      exact hacc r (by simp) q hq.1 hq.2
    rw [List.foldl_cons, hstep,
      ih (acc ++ [(r.telegram_id, r.bitrix_user_id)]) hnd ?_]
    · simp
    · intro x hx q hq
      rcases List.mem_append.1 hq with hq | hq
      · exact hacc x (by simp [hx]) q hq
      · have : q = (r.telegram_id, r.bitrix_user_id) := by simpa using hq
        subst this
        exact hr x hx

theorem load_all_eq_map {s : DBState} (hs : TgSorted s) :
    load_all_telegram_mappings false s
      = s.tg.map (fun r => (r.telegram_id, r.bitrix_user_id)) := by
  unfold load_all_telegram_mappings
  simp only [Bool.false_eq_true, if_false]
  rw [foldl_dictInsert s.tg []
    (hs.imp fun h => ne_of_lt h) (by simp)]
  simp

/-! ## Folding a batch of saves (for the bulk-load property) -/

/-- Saving a list of `(telegram_id, bitrix_user_id)` pairs one by one, all
at the same timestamp and with no storage fault. -/
def saveAll (now : Nat) (s : DBState) (ps : List (Int × Int)) : DBState :=
  ps.foldl (fun t p => (save_telegram_mapping false now t p.1 p.2).1) s

theorem tgSorted_saveAll (now : Nat) (ps : List (Int × Int)) :
    ∀ s : DBState, TgSorted s → TgSorted (saveAll now s ps) := by
  induction ps with
  | nil => intro s hs; exact hs
  | cons p ps ih =>
    intro s hs
    exact ih _ (tgSorted_save false now s p.1 p.2 hs)

theorem saveAll_tg (now : Nat) (ps : List (Int × Int)) :
    ∀ s : DBState,
      (ps.map Prod.fst).Nodup →
      (∀ p ∈ ps, ∀ r ∈ s.tg, r.telegram_id ≠ p.1) →
      (saveAll now s ps).tg.length = s.tg.length + ps.length
      ∧ (∀ r ∈ s.tg, r ∈ (saveAll now s ps).tg)
      ∧ (∀ p ∈ ps, (⟨p.1, p.2, now, now⟩ : TgRow) ∈ (saveAll now s ps).tg) := by
  induction ps with
  | nil => intro s _ _; exact ⟨rfl, fun r hr => hr, by simp⟩
  | cons p ps ih =>
    intro s hnd hkeys
    rw [List.map_cons, List.nodup_cons] at hnd
    obtain ⟨hp, hnd⟩ := hnd
    have hfresh : ∀ r ∈ s.tg, r.telegram_id ≠ p.1 :=
      fun r hr => hkeys p (by simp) r hr
    have hfilter : s.tg.filter (fun r => r.telegram_id ≠ p.1) = s.tg := by
      rw [List.filter_eq_self]
      intro a ha
      simpa using hfresh a ha
    have hs1 : (save_telegram_mapping false now s p.1 p.2).1.tg
        = insertByRowid ⟨p.1, p.2, now, now⟩ s.tg := by
      unfold save_telegram_mapping
      simp only [Bool.false_eq_true, if_false]
      rw [hfilter]
    have hmem1 : ∀ r ∈ s.tg,
        r ∈ (save_telegram_mapping false now s p.1 p.2).1.tg := by
      intro r hr
      rw [hs1]
      exact (mem_insertByRowid _ r _).2 (Or.inr hr)
    have hkeys1 : ∀ q ∈ ps,
        ∀ r ∈ (save_telegram_mapping false now s p.1 p.2).1.tg,
          r.telegram_id ≠ q.1 := by
      intro q hq r hr
      rw [hs1] at hr
      rcases (mem_insertByRowid _ r _).1 hr with hr | hr
      · subst hr
        intro e
        apply hp
        have hpq : p.1 = q.1 := e
        rw [hpq]
        exact List.mem_map_of_mem Prod.fst hq
      · exact hkeys q (by simp [hq]) r hr
    have hlen1 : (save_telegram_mapping false now s p.1 p.2).1.tg.length
        = s.tg.length + 1 := by
      rw [hs1, length_insertByRowid]
    obtain ⟨ihlen, ihpres, ihmem⟩ :=
      ih (save_telegram_mapping false now s p.1 p.2).1 hnd hkeys1
    refine ⟨?_, ?_, ?_⟩
    · show (saveAll now _ (p :: ps)).tg.length = _
      rw [saveAll, List.foldl_cons]
      rw [show (ps.foldl (fun t q => (save_telegram_mapping false now t q.1 q.2).1)
          (save_telegram_mapping false now s p.1 p.2).1)
        = saveAll now (save_telegram_mapping false now s p.1 p.2).1 ps from rfl]
      rw [ihlen, hlen1, List.length_cons]
      omega
    · intro r hr
      exact ihpres r (hmem1 r hr)
    · intro q hq
      rcases List.mem_cons.1 hq with hq | hq
      · subst hq
        refine ihpres _ ?_
        rw [hs1]
        exact (mem_insertByRowid _ _ _).2 (Or.inl rfl)
      · exact ihmem q hq

theorem find?_min_key {p : TgRow → Bool} {l : List TgRow} {r : TgRow}
    (hl : l.Pairwise (fun a b => a.telegram_id < b.telegram_id))
    (hf : l.find? p = some r) :
    ∀ x ∈ l, p x = true → r.telegram_id ≤ x.telegram_id := by
  induction l with
  | nil => simp at hf
  | cons a xs ih =>
    rw [List.pairwise_cons] at hl
    obtain ⟨ha, hxs⟩ := hl
    by_cases h : p a
    · rw [List.find?_cons_of_pos _ h] at hf
      obtain rfl : a = r := by simpa using hf
      intro x hx _
      rcases List.mem_cons.1 hx with hx | hx
      · exact hx ▸ le_refl _
      · exact le_of_lt (ha x hx)
    · rw [List.find?_cons_of_neg _ h] at hf
      intro x hx hpx
      rcases List.mem_cons.1 hx with hx | hx
      · exact absurd (hx ▸ hpx) h
      · exact ih hxs hf x hx hpx

example : get_bitrix_user_id false
    (save_telegram_mapping false 3 emptyDB 42 7).1 42 = some 7 := by decide

example : lstripAt "@alice" = "alice" := by decide

example :
    (save_telegram_mapping false 5
      (save_telegram_mapping false 0 emptyDB 42 7).1 42 9).1
    = ⟨[⟨42, 9, 5, 5⟩], []⟩ := by decide

/-! ## The claims -/

/-- C1: For every pair `(messaging_id, crm_user_id)`, calling
`SaveIdentityMapping(messaging_id, crm_user_id)` (a fault-free
`save_telegram_mapping`) and then `GetCrmUserId(messaging_id)`
(`get_bitrix_user_id`) on the resulting state returns that
`crm_user_id`. -/
theorem save_then_get_roundtrip (now : Nat) (s : DBState) (tid bid : Int) :
    get_bitrix_user_id false
      (save_telegram_mapping false now s tid bid).1 tid = some bid := by
  unfold get_bitrix_user_id
  simp only [Bool.false_eq_true, if_false]
  rw [find?_tg_after_save]

/-- C2: In every reachable state each `messaging_id` carries at most one
row (hence at most one `crm_user_id`); saving `(42, 7)` and then `(42, 9)`
leaves exactly one row for id 42 and `GetCrmUserId(42)` returns 9. -/
theorem upsert_replaces_invariant :
    (∀ s : DBState, Reachable s → ∀ tid : Int,
        s.tg.countP (fun r => r.telegram_id = tid) ≤ 1)
    ∧ (save_telegram_mapping false 1
        (save_telegram_mapping false 0 emptyDB 42 7).1 42 9).1.tg.countP
          (fun r => r.telegram_id = 42) = 1
    ∧ get_bitrix_user_id false
        (save_telegram_mapping false 1
          (save_telegram_mapping false 0 emptyDB 42 7).1 42 9).1 42
        = some 9 :=
  ⟨fun _ hs tid => countP_key_le_one (reachable_sorted hs) tid,
    by decide, by decide⟩

theorem upsert_replaces_invariant_witness :
    emptyDB.tg.countP (fun r => r.telegram_id = 42) ≤ 1 :=
  upsert_replaces_invariant.1 emptyDB Reachable.init 42

/-- C3: After `SaveIdentityMapping(messaging_id, crm_user_id)` on a state
in which no other row carries that `crm_user_id`, the reverse lookup
`GetMessagingId(crm_user_id)` (`get_telegram_id`) returns
`messaging_id`. -/
theorem save_then_reverse_lookup (now : Nat) (s : DBState) (tid bid : Int)
    (h : ∀ r ∈ s.tg, r.telegram_id ≠ tid → r.bitrix_user_id ≠ bid) :
    get_telegram_id false (save_telegram_mapping false now s tid bid).1 bid
      = some tid := by
  unfold get_telegram_id save_telegram_mapping
  simp only [Bool.false_eq_true, if_false]
  have hfind : (insertByRowid ⟨tid, bid, now, now⟩
      (s.tg.filter (fun r => r.telegram_id ≠ tid))).find?
        (fun r => r.bitrix_user_id = bid) = some ⟨tid, bid, now, now⟩ := by
    refine find?_insertByRowid ?_ (by simp)
    intro x hx
    have hmem := List.mem_filter.1 hx
    have hne : x.telegram_id ≠ tid := by simpa using hmem.2
    have := h x hmem.1 hne
    simpa using this
  rw [hfind]

theorem save_then_reverse_lookup_witness :
    get_telegram_id false (save_telegram_mapping false 0 emptyDB 42 7).1 7
      = some 42 :=
  save_then_reverse_lookup 0 emptyDB 42 7
    (by intro r hr _; simp [emptyDB] at hr)

/-- C4: handle save and lookup apply the same leading-sigil
normalization: `SaveHandleMapping("@alice", crm_user_id)` succeeds and
both `GetCrmUserIdByHandle("alice")` and `GetCrmUserIdByHandle("@alice")`
return that `crm_user_id`. -/
theorem handle_sigil_normalization (now : Nat) (s : DBState) (bid : Int) :
    (save_username_mapping false now s "@alice" bid).2 = true
    ∧ get_bitrix_user_id_by_username false
        (save_username_mapping false now s "@alice" bid).1 "alice"
        = some bid
    ∧ get_bitrix_user_id_by_username false
        (save_username_mapping false now s "@alice" bid).1 "@alice"
        = some bid := by
  have h1 : lstripAt "@alice" = "alice" := by decide
  have h2 : lstripAt "alice" = "alice" := by decide
  have hfind : (save_username_mapping false now s "@alice" bid).1.un.find?
      (fun r => r.telegram_username = "alice")
      = some ⟨"alice", bid, now, now⟩ := by
    unfold save_username_mapping
    simp only [Bool.false_eq_true, if_false, h1]
    refine find?_append_of_forall ?_ (by simp)
    intro x hx
    have := (List.mem_filter.1 hx).2
    simpa using this
  refine ⟨?_, ?_, ?_⟩
  · unfold save_username_mapping
    simp
  · unfold get_bitrix_user_id_by_username
    simp only [Bool.false_eq_true, if_false, h2]
    rw [hfind]
  · unfold get_bitrix_user_id_by_username
    simp only [Bool.false_eq_true, if_false, h1]
    rw [hfind]

/-- C5: fault-free `DeleteIdentityMapping(messaging_id)`
(`delete_telegram_mapping`) returns `true` exactly when a row for
`messaging_id` was present; afterwards `GetCrmUserId(messaging_id)`
returns absent; a `false` return leaves the store unchanged. -/
theorem delete_semantics (s : DBState) (tid : Int) :
    ((delete_telegram_mapping false s tid).2 = true ↔
      ∃ r ∈ s.tg, r.telegram_id = tid)
    ∧ get_bitrix_user_id false (delete_telegram_mapping false s tid).1 tid
        = none
    ∧ ((delete_telegram_mapping false s tid).2 = false →
        (delete_telegram_mapping false s tid).1 = s) := by
  unfold delete_telegram_mapping
  simp only [Bool.false_eq_true, if_false]
  by_cases h : 0 < s.tg.countP (fun r => r.telegram_id = tid)
  · have hex : ∃ r ∈ s.tg, r.telegram_id = tid := by
      have := List.countP_pos_iff.1 h
      simpa using this
    have hnone : (s.tg.filter (fun r => r.telegram_id ≠ tid)).find?
        (fun r => r.telegram_id = tid) = none := by
      rw [List.find?_eq_none]
      intro x hx
      have := (List.mem_filter.1 hx).2
      simpa using this
    refine ⟨by simp [hex], ?_, by simp [hex]⟩
    unfold get_bitrix_user_id
    simp only [if_pos h, Bool.false_eq_true, if_false]
    rw [hnone]
  · have hnone : s.tg.find? (fun r => r.telegram_id = tid) = none := by
      rw [List.find?_eq_none]
      intro x hx
      simp only [decide_eq_true_eq]
      intro e
      exact h (List.countP_pos_iff.2 ⟨x, hx, by simp [e]⟩)
    have hnex : ¬∃ r ∈ s.tg, r.telegram_id = tid := fun hex =>
      h (List.countP_pos_iff.2 (by simpa using hex))
    refine ⟨?_, ?_, by simp [hnex]⟩
    · simp only [if_neg h]
      constructor
      · intro hfalse
        exact absurd hfalse (by simp)
      · intro hex
        exact absurd hex hnex
    · unfold get_bitrix_user_id
      simp only [if_neg h, Bool.false_eq_true, if_false]
      rw [hnone]

theorem delete_semantics_witness :
    get_bitrix_user_id false (delete_telegram_mapping false emptyDB 42).1 42
      = none
    ∧ (delete_telegram_mapping false emptyDB 42).1 = emptyDB :=
  ⟨(delete_semantics emptyDB 42).2.1,
    (delete_semantics emptyDB 42).2.2 (by decide)⟩

/-- C6: after saving N identity mappings with distinct `messaging_id`s
onto the empty store, `LoadAllIdentityMappings()` returns a mapping with
exactly N entries, each saved pair among them; on the empty store it
returns the empty mapping. -/
theorem bulk_load_exact (now : Nat) (ps : List (Int × Int))
    (h : (ps.map Prod.fst).Nodup) :
    (load_all_telegram_mappings false (saveAll now emptyDB ps)).length
        = ps.length
    ∧ (∀ p ∈ ps, p ∈ load_all_telegram_mappings false (saveAll now emptyDB ps))
    ∧ load_all_telegram_mappings false emptyDB = [] := by
  have hsorted : TgSorted (saveAll now emptyDB ps) :=
    tgSorted_saveAll now ps emptyDB List.Pairwise.nil
  obtain ⟨hlen, _, hmem⟩ := saveAll_tg now ps emptyDB h
    (by intro p _ r hr; simp [emptyDB] at hr)
  rw [load_all_eq_map hsorted]
  refine ⟨?_, ?_, rfl⟩
  · rw [List.length_map, hlen]
    simp [emptyDB]
  · intro p hp
    have : (p.1, p.2) ∈ (saveAll now emptyDB ps).tg.map
        (fun r => (r.telegram_id, r.bitrix_user_id)) :=
      List.mem_map.2 ⟨_, hmem p hp, rfl⟩
    simpa using this

theorem bulk_load_exact_witness :
    (load_all_telegram_mappings false
      (saveAll 0 emptyDB [(1, 5), (2, 6)])).length = 2 :=
  (bulk_load_exact 0 [(1, 5), (2, 6)] (by decide)).1

/-- C7: with a storage fault injected, no public operation propagates the
exception: the writes return `false` with the transaction rolled back
(state unchanged), and the reads return absence (`none` / the empty
mapping). -/
theorem storage_fault_swallowed (now : Nat) (s : DBState) (tid bid : Int)
    (u : String) :
    save_telegram_mapping true now s tid bid = (s, false)
    ∧ save_username_mapping true now s u bid = (s, false)
    ∧ delete_telegram_mapping true s tid = (s, false)
    ∧ get_bitrix_user_id true s tid = none
    ∧ get_telegram_id true s bid = none
    ∧ get_bitrix_user_id_by_username true s u = none
    ∧ load_all_telegram_mappings true s = [] :=
  ⟨rfl, rfl, rfl, rfl, rfl, rfl, rfl⟩

/-- C8 (counterexample): saving `(42, 7)` at time 0 and then `(42, 9)` at
time 5 leaves the row for 42 with `created_at = 5`, not the original 0:
`INSERT OR REPLACE` deletes the old row and inserts a fresh one, so
`created_at` does NOT stay unchanged. -/
theorem created_at_reset_counterexample :
    ((save_telegram_mapping false 0 emptyDB 42 7).1.tg.find?
        (fun r => r.telegram_id = 42)).map TgRow.created_at = some 0
    ∧ ((save_telegram_mapping false 5
          (save_telegram_mapping false 0 emptyDB 42 7).1 42 9).1.tg.find?
        (fun r => r.telegram_id = 42)).map TgRow.created_at = some 5
    ∧ (some (5 : Nat) ≠ some (0 : Nat)) := by decide

/-- C8 (amended): when `SaveIdentityMapping` is called for a
`messaging_id` that already has a row, the row is replaced wholesale:
`crm_user_id` takes the new value and `updated_at` is refreshed, but
`created_at` is also reset to the current timestamp — the stored row is
exactly `⟨messaging_id, crm_user_id, now, now⟩`. -/
theorem save_existing_replaces_row (now : Nat) (s : DBState) (tid bid : Int)
    (_h : ∃ r ∈ s.tg, r.telegram_id = tid) :
    (save_telegram_mapping false now s tid bid).1.tg.find?
      (fun r => r.telegram_id = tid) = some ⟨tid, bid, now, now⟩ :=
  find?_tg_after_save now s tid bid

theorem save_existing_replaces_row_witness :
    (save_telegram_mapping false 5
      (save_telegram_mapping false 0 emptyDB 42 7).1 42 9).1.tg.find?
      (fun r => r.telegram_id = 42) = some ⟨42, 9, 5, 5⟩ :=
  save_existing_replaces_row 5 (save_telegram_mapping false 0 emptyDB 42 7).1
    42 9 (by decide)

/-- C9: `GetMessagingId` is deterministic on a fixed state, and when
several rows share the `crm_user_id` it picks the first match in storage
order: the returned `messaging_id` is the smallest one among the matching
rows (the index scan delivers rows in `(bitrix_user_id, rowid)` order). -/
theorem reverse_lookup_first_in_order (s : DBState) (bid : Int)
    (hs : Reachable s) :
    get_telegram_id false s bid = get_telegram_id false s bid
    ∧ ∀ t : Int, get_telegram_id false s bid = some t →
        ∃ r ∈ s.tg, r.telegram_id = t ∧ r.bitrix_user_id = bid
          ∧ ∀ x ∈ s.tg, x.bitrix_user_id = bid → t ≤ x.telegram_id := by
  refine ⟨rfl, ?_⟩
  intro t ht
  unfold get_telegram_id at ht
  simp only [Bool.false_eq_true, if_false] at ht
  cases hf : s.tg.find? (fun r => r.bitrix_user_id = bid) with
  | none =>
    rw [hf] at ht
    simp at ht
  | some r =>
    rw [hf] at ht
    have htid : r.telegram_id = t := by simpa using ht
    have hbid : r.bitrix_user_id = bid := by
      have := List.find?_some hf
      simpa using this
    refine ⟨r, List.mem_of_find?_eq_some hf, htid, hbid, ?_⟩
    intro x hx hxb
    have := find?_min_key (reachable_sorted hs) hf x hx (by simp [hxb])
    rw [← htid]
    exact this

theorem reverse_lookup_first_in_order_witness :
    ∃ r ∈ (save_telegram_mapping false 1
        (save_telegram_mapping false 0 emptyDB 1 7).1 2 7).1.tg,
      r.telegram_id = 1 ∧ r.bitrix_user_id = 7
        ∧ ∀ x ∈ (save_telegram_mapping false 1
            (save_telegram_mapping false 0 emptyDB 1 7).1 2 7).1.tg,
            x.bitrix_user_id = 7 → 1 ≤ x.telegram_id :=
  (reverse_lookup_first_in_order
      (save_telegram_mapping false 1
        (save_telegram_mapping false 0 emptyDB 1 7).1 2 7).1 7
      (Reachable.save false 1 2 7
        (Reachable.save false 0 1 7 Reachable.init))).2 1 (by decide)

/-- C10: `get_all_mappings()` is observationally equal to
`load_all_telegram_mappings()` on every state and fault condition. -/
theorem get_all_mappings_is_alias (fault : Bool) (s : DBState) :
    get_all_mappings fault s = load_all_telegram_mappings fault s := rfl
